import Mathlib

/-!
Verification of the streaming OCR server against its specification.

The development shallowly embeds the server-side pipeline:
text post-processing (`OCRProcessor::postProcessText`, two variants),
the recognizer wrapper (`OCRProcessor::processImage`), the memory
governor and reader loop (`OCRServiceImpl::ProcessImages`), the thread
pool (`ThreadPool`), the stream-write discipline, round-robin processor
selection, and the command-line parsing in `main`.
Strings are modelled as `List Char`, byte buffers as `List Nat`,
machine counters as `Nat`/`Int` with explicit wrap-around.
-/

namespace OCRServer

/-- The whitespace set used by `find_first_not_of(" \t\n\r\f\v")` in both
`postProcessText` variants (space, tab 9, newline 10, vertical tab 11,
form feed 12, carriage return 13). -/
def isWs (c : Char) : Bool :=
  c == ' ' || c == Char.ofNat 9 || c == Char.ofNat 10 || c == Char.ofNat 13 ||
  c == Char.ofNat 11 || c == Char.ofNat 12

/-- The punctuation set trimmed from both ends in the `src/OCRProcessor.cpp`
variant: the C++ string contains period, comma, bang, question mark, star,
dash, pipe, backtick (96), apostrophe (39) and double quote (34). -/
def isPunct (c : Char) : Bool :=
  c == '.' || c == ',' || c == '!' || c == '?' || c == '*' || c == '-' ||
  c == '|' || c == Char.ofNat 96 || c == Char.ofNat 39 || c == Char.ofNat 34

/-- Remove the longest suffix whose characters all satisfy `p`; together with
`List.dropWhile` this is the substring selected by
`find_first_not_of` / `find_last_not_of` in the C++ code. -/
def dropLastWhile (p : Char → Bool) (l : List Char) : List Char :=
  (l.reverse.dropWhile p).reverse

/-- Leading/trailing whitespace removal, as done by the erase/substr
code at the top of both `postProcessText` variants: when every character is
whitespace the result is the empty string. -/
def stripWs (l : List Char) : List Char :=
  dropLastWhile isWs (l.dropWhile isWs)

/-- Space-collapsing loop of the `part_003` variant:
`while ((pos = result.find("  ", pos)) != npos) { result.replace(pos, 2, " "); pos += 1; }`.
After a replacement the scan resumes one past the inserted space, so the
replaced position is never re-examined. -/
def collapseA : List Char → List Char
  | [] => []
  | [c] => [c]
  | c1 :: c2 :: rest =>
    if c1 == ' ' && c2 == ' ' then ' ' :: collapseA rest
    else c1 :: collapseA (c2 :: rest)

/-- Space-collapsing loop of the `src/OCRProcessor.cpp` variant:
`while ((pos = result.find("  ", pos)) != npos) { result.replace(pos, 2, " "); }`.
The position is not advanced past the replacement, so whole runs of spaces
collapse to a single space.  When the lookahead sees two spaces the loop
continues on the string starting at the inserted space; since `c2` is that
space, recursing on `c2 :: rest` is the same list. -/
def collapseFull : List Char → List Char
  | [] => []
  | [c] => [c]
  | c1 :: c2 :: rest =>
    if c1 == ' ' && c2 == ' ' then collapseFull (c2 :: rest)
    else c1 :: collapseFull (c2 :: rest)

/-- One in-place replacement pass of the `src/OCRProcessor.cpp` variant:
`while ((pos = result.find(pat, pos)) != npos) { result.replace(pos, pat.length, rep); pos += rep.length; }`.
The scan resumes immediately after the inserted replacement text.  The
recursion is driven by a fuel argument so the definition is structurally
recursive; every step consumes at least one character of `l` (the table's
patterns are all non-empty), so fuel `l.length` is never exhausted. -/
def replaceAllAdvFuel (pat rep : List Char) : Nat → List Char → List Char
  | 0, l => l
  | _ + 1, [] => []
  | fuel + 1, c :: rest =>
    if pat.isPrefixOf (c :: rest) then
      rep ++ replaceAllAdvFuel pat rep fuel ((c :: rest).drop pat.length)
    else
      c :: replaceAllAdvFuel pat rep fuel rest

/-- The replacement pass on a whole string; an empty pattern never occurs in
the source's table. -/
def replaceAllAdv (pat rep : List Char) (l : List Char) : List Char :=
  if pat.isEmpty then l else replaceAllAdvFuel pat rep l.length l

/-- The replacement table of `src/OCRProcessor.cpp` (`postProcessText`),
in source order; codes 96/39/34/92 are backtick, apostrophe, double quote
and backslash. -/
def replacements : List (List Char × List Char) :=
  [ (['|'], ['l']), (['['], ['l']), ([']'], ['l']),
    ([Char.ofNat 96], [Char.ofNat 39]),
    ([Char.ofNat 39, Char.ofNat 39], [Char.ofNat 34]),
    ([' ', '-', ' '], ['-']), ([' ', ','], [',']), ([' ', '.'], ['.']),
    ([Char.ofNat 92], ['l']), (['/', '/'], ['l']),
    (['0'], ['o']), (['1'], ['l']), (['5'], ['s']) ]

/-- Apply the replacement table in order, as the C++ for-loop does. -/
def applyReplacements (l : List Char) : List Char :=
  replacements.foldl (fun acc pr => replaceAllAdv pr.1 pr.2 acc) l

/-- Punctuation trimming of the `src/OCRProcessor.cpp` variant: characters of
the punctuation set are removed one at a time from the front, then from the
back. -/
def trimPunct (l : List Char) : List Char :=
  dropLastWhile isPunct (l.dropWhile isPunct)

/-- `OCRProcessor::postProcessText` from `src/OCRProcessor.cpp`:
whitespace strip, replacement table, punctuation trim, space collapse,
in that order. -/
def postProcessText_main (text : List Char) : List Char :=
  if text.isEmpty then [] else
  let r := stripWs text
  if r.isEmpty then [] else
  collapseFull (trimPunct (applyReplacements r))

/-- `OCRProcessor::postProcessText` from `part_003`: whitespace strip followed
by the advancing space-collapse; no replacements, no punctuation trim. -/
def postProcessText_v2 (text : List Char) : List Char :=
  if text.isEmpty then [] else
  let r := stripWs text
  if r.isEmpty then [] else
  collapseA r

/-- Modelled from the spec's post-processing contract, as the comparison
point for the refinement claim: strip whitespace, collapse every run of two
or more spaces to a single space, trim the punctuation set from both ends. -/
def specCollapse : List Char → List Char
  | [] => []
  | [c] => [c]
  | c1 :: c2 :: rest =>
    if c1 == ' ' && c2 == ' ' then specCollapse (c2 :: rest)
    else c1 :: specCollapse (c2 :: rest)

/-- The spec's four-step post-processing function. -/
def specPostProcess (l : List Char) : List Char :=
  trimPunct (specCollapse (stripWs l))

/-- Wire message `ImageRequest` (`ocr_service` proto): id and filename are
strings, `image_data` a byte sequence. -/
structure ImageRequest where
  image_id : String
  filename : String
  image_data : List Nat
deriving DecidableEq

/-- Wire message `OCRResult`: the id echoed back, the recognized text, a
success flag and an error message. -/
structure OCRResult where
  image_id : String
  extracted_text : List Char
  success : Bool
  error_message : String
deriving DecidableEq

/-- `MAX_MEMORY_USAGE = 500 * 1024 * 1024` from `OCRService.cpp` (part_007):
the global in-flight byte ceiling. -/
def MAX_MEMORY_USAGE : Nat := 500 * 1024 * 1024

/-- The governor's admission decision as performed by the reader loop:
`g_activeImageSize.load() + imageData.size() > MAX_MEMORY_USAGE` rejects and
leaves the counter alone; otherwise the request's bytes are added
(`g_activeImageSize += imageData.size()`). -/
def admitBytes (c n : Nat) : Bool × Nat :=
  if c + n > MAX_MEMORY_USAGE then (false, c) else (true, c + n)

/-- `g_activeImageSize -= imageData.size()` executed by the worker when the
task completes. -/
def release (c n : Nat) : Nat := c - n

/-- The worker lambda updates the byte counter before attempting
`stream->Write`, so the counter after the task does not depend on whether
the write succeeded. -/
def workerOutcome (c n : Nat) (writeOk : Bool) : Nat × Bool :=
  (release c n, writeOk)

/-- The `OCRResult` built by the worker lambda in `ProcessImages`
(part_007, also part_008): success iff the extracted text is non-empty,
with the generic failure message otherwise. -/
def workerResult (imageId : String) (text : List Char) : OCRResult :=
  { image_id := imageId
    extracted_text := text
    success := !text.isEmpty
    error_message := if text.isEmpty then "OCR failed to extract text" else "" }

/-- One iteration of the part_007 reader loop for one request, sequentialized
(the worker of an admitted request is run to completion before the next read;
per-request results and the net counter effect are the same as in any
interleaving).  `ocr` abstracts `processor->processImage`.  Branch order
follows the source: the memory-ceiling check precedes the empty-payload
check, and both precede the counter update. -/
def readerStep (ocr : ImageRequest → List Char) (c : Nat) (r : ImageRequest) :
    OCRResult × Nat :=
  let n := r.image_data.length
  if c + n > MAX_MEMORY_USAGE then
    ({ image_id := r.image_id, extracted_text := [], success := false,
       error_message := "Server memory limit exceeded" }, c)
  else if r.image_data.isEmpty then
    ({ image_id := r.image_id, extracted_text := [], success := false,
       error_message := "Empty image data" }, c)
  else
    let c1 := c + n
    let text := ocr r
    let c2 := release c1 n
    (workerResult r.image_id text, c2)

/-- The whole session: fold the reader loop over the stream's requests,
collecting the emitted results and the final byte counter. -/
def processSession (ocr : ImageRequest → List Char) :
    Nat → List ImageRequest → List OCRResult × Nat
  | c, [] => ([], c)
  | c, r :: rs =>
    let stepped := readerStep ocr c r
    let rest := processSession ocr stepped.2 rs
    (stepped.1 :: rest.1, rest.2)

/-- `OCRProcessor::processImage` from `src/OCRProcessor.cpp`: returns the
empty string when the processor is not ready, when the payload is empty, or
when `cleanImage` cannot decode the bytes (`decode` abstracts the
`pixReadMem`-based pipeline, `recognize` abstracts Tesseract); otherwise the
recognizer output is post-processed. -/
def processImage (initOk : Bool) (decode : List Nat → Bool)
    (recognize : List Nat → List Char) (imageData : List Nat) : List Char :=
  if !initOk then []
  else if imageData.isEmpty then []
  else if !(decode imageData) then []
  else postProcessText_main (recognize imageData)

/-- `ThreadPool` state (ThreadPool.h): the task queue, the active-task
counter and the stop flag. -/
structure ThreadPool (τ : Type) where
  m_tasks : List τ
  m_activeTasks : Nat
  m_stop : Bool

/-- `ThreadPool::enqueue`: under the queue mutex, push the task and bump the
active counter, then notify.  There is no capacity check and no wait: the
queue is a plain `std::queue`. -/
def ThreadPool.enqueue (p : ThreadPool τ) (t : τ) : ThreadPool τ :=
  { p with m_tasks := p.m_tasks ++ [t], m_activeTasks := p.m_activeTasks + 1 }

/-- `n` successive calls to `enqueue` with no intervening worker activity. -/
def enqueueN (t : τ) (p : ThreadPool τ) : Nat → ThreadPool τ
  | 0 => p
  | n + 1 => (enqueueN t p n).enqueue t

/-- A freshly constructed pool: empty queue, zero active tasks. -/
def emptyPool : ThreadPool Nat := ⟨[], 0, false⟩

/-- `MAX_CONCURRENT_TASKS = 4` from the part_007 session. -/
def MAX_CONCURRENT_TASKS : Nat := 4

/-- Per-session task accounting of part_007: `queued` tasks sit in the pool's
queue, `running` ones have been picked up but have not yet decremented
`activeTasks`; the atomic `activeTasks` equals `queued + running`. -/
structure SessionTasks where
  queued : Nat
  running : Nat
deriving DecidableEq

/-- Interleaved steps of the part_007 session: the reader dispatches only
after its spin loop observed `activeTasks < MAX_CONCURRENT_TASKS` (it is the
only incrementing thread, so the observed bound still holds at the
increment); a worker may pick a queued task up or finish a running one. -/
inductive SessionStep : SessionTasks → SessionTasks → Prop
  | dispatch (s : SessionTasks) :
      s.queued + s.running < MAX_CONCURRENT_TASKS →
      SessionStep s ⟨s.queued + 1, s.running⟩
  | pickup (s : SessionTasks) :
      0 < s.queued → SessionStep s ⟨s.queued - 1, s.running + 1⟩
  | complete (s : SessionTasks) :
      0 < s.running → SessionStep s ⟨s.queued, s.running - 1⟩

/-- States a session can reach from an idle start. -/
inductive SessionReachable : SessionTasks → Prop
  | start : SessionReachable ⟨0, 0⟩
  | step {s s' : SessionTasks} :
      SessionReachable s → SessionStep s s' → SessionReachable s'

/-- The write side of one session's stream: which thread (if any) holds
`m_streamMutex`, and which threads are inside `stream->Write`. -/
structure StreamWriteState where
  owner : Option Nat
  writing : Nat → Bool

/-- part_007 write discipline: every `stream->Write` call sits inside a
`std::lock_guard<std::mutex> lock(m_streamMutex)` block, so a thread enters
the write only when the mutex is free and leaves it before the unlock. -/
inductive MutexStep : StreamWriteState → StreamWriteState → Prop
  | acquire (s : StreamWriteState) (t : Nat) :
      s.owner = none →
      MutexStep s ⟨some t, Function.update s.writing t true⟩
  | unlock (s : StreamWriteState) (t : Nat) :
      s.owner = some t →
      MutexStep s ⟨none, Function.update s.writing t false⟩

/-- Stream-write states reachable in the part_007 session. -/
inductive MutexReach : StreamWriteState → Prop
  | start : MutexReach ⟨none, fun _ => false⟩
  | step {s s' : StreamWriteState} :
      MutexReach s → MutexStep s s' → MutexReach s'

/-- part_008 write discipline: the worker lambda calls `stream->Write`
directly, with no mutex, so any thread may enter or leave the write section
at any time. -/
inductive FreeStep : StreamWriteState → StreamWriteState → Prop
  | enter (s : StreamWriteState) (t : Nat) :
      FreeStep s ⟨s.owner, Function.update s.writing t true⟩
  | leave (s : StreamWriteState) (t : Nat) :
      FreeStep s ⟨s.owner, Function.update s.writing t false⟩

/-- Stream-write states reachable in the part_008 session. -/
inductive FreeReach : StreamWriteState → Prop
  | start : FreeReach ⟨none, fun _ => false⟩
  | step {s s' : StreamWriteState} :
      FreeReach s → FreeStep s s' → FreeReach s'

/-- A part_008 state in which workers 0 and 1 are both inside
`stream->Write`. -/
def twoWritersState : StreamWriteState :=
  ⟨none, Function.update (Function.update (fun _ => false) 0 true) 1 true⟩

/-- A part_007 state in which worker 0 holds the mutex and is writing. -/
def oneWriterState : StreamWriteState :=
  ⟨some 0, Function.update (fun _ => false) 0 true⟩

/-- The value of the signed 32-bit `m_nextProcessorIndex` after `k`
post-increments from 0, with two's-complement wrap-around (atomic `int`
arithmetic is defined modulo 2^32). -/
def int32OfCount (k : Nat) : Int :=
  (((k : Int) + 2 ^ 31) % 2 ^ 32) - 2 ^ 31

/-- Conversion of an `int` to `size_t` by the usual arithmetic conversions in
`m_nextProcessorIndex++ % m_processors.size()`: reduction modulo 2^64. -/
def size_tOfInt (i : Int) : Nat :=
  (i % 2 ^ 64).toNat

/-- `int processorIndex = m_nextProcessorIndex++ % m_processors.size();`
after `k` previous dispatches with `n` processors: the `%` is computed in
`size_t` because of the unsigned operand. -/
def processorIndex (k n : Nat) : Nat :=
  size_tOfInt (int32OfCount k) % n

/-- `m_processors[processorIndex]` as a checked lookup. -/
def selectProcessor (ps : List α) (k : Nat) : Option α :=
  ps.get? (processorIndex k ps.length)

/-- `main`'s initial address string: `"0.0.0.0:50051"`. -/
def defaultAddress : List Char := "0.0.0.0:50051".toList

/-- The `--port` branch of `main`: keep everything before the first colon of
the current address (or fall back to `0.0.0.0`) and append the new port. -/
def applyPort (address port : List Char) : List Char :=
  if ':' ∈ address then
    address.takeWhile (fun c => c != ':') ++ ':' :: port
  else
    "0.0.0.0:".toList ++ port

/-- The argument-parsing loop of `main` (part_005, identical in both server
variants).  `--address ip` overwrites the whole address with `ip:50051`;
`--port p` rewrites only the port part; `--threads n` consumes its value;
`--help` returns from `main` before a server is built (`none`); anything
else is skipped.  A trailing flag without a value fails the `i + 1 < argc`
test and is ignored. -/
def parseArgs : List (List Char) → List Char → Option (List Char)
  | [], addr => some addr
  | [a], addr =>
    if a = "--help".toList then none else some addr
  | a :: b :: rest, addr =>
    if a = "--address".toList then
      parseArgs rest (b ++ ":50051".toList)
    else if a = "--port".toList then
      parseArgs rest (applyPort addr b)
    else if a = "--threads".toList then
      parseArgs rest addr
    else if a = "--help".toList then
      none
    else
      parseArgs (b :: rest) addr

/-- The address the server binds for a given command line (`none` when
`--help` exits first). -/
def serverAddress (args : List (List Char)) : Option (List Char) :=
  parseArgs args defaultAddress

/-- Whether `pat` occurs as a contiguous substring of a string, used to state
what an error message carries. -/
def hasSub (pat : List Char) : List Char → Bool
  | [] => pat.isEmpty
  | c :: rest => pat.isPrefixOf (c :: rest) || hasSub pat rest

/-- Concrete two-request session used to instantiate the session theorems:
one valid one-byte image and one empty payload. -/
def exampleRequests : List ImageRequest :=
  [⟨"a", "f1", [1]⟩, ⟨"b", "f2", []⟩]

theorem head?_dropWhile {p : Char → Bool} {c : Char} :
    ∀ {l : List Char}, (l.dropWhile p).head? = some c → p c = false := by
  intro l
  induction l with
  | nil => simp
  | cons a t ih =>
    rw [List.dropWhile_cons]
    split
    · exact ih
    · rename_i hpa
      intro h
      simp only [List.head?_cons, Option.some.injEq] at h
      subst h
      exact Bool.not_eq_true _ ▸ eq_false_of_ne_true hpa

theorem dropLastWhile_front (p : Char → Bool) (l : List Char) :
    dropLastWhile p l <+: l := by
  refine ⟨(l.reverse.takeWhile p).reverse, ?_⟩
  rw [dropLastWhile, ← List.reverse_append, List.takeWhile_append_dropWhile,
    List.reverse_reverse]

theorem head?_of_front {l₁ l₂ : List Char} (h : l₁ <+: l₂) {c : Char}
    (hc : l₁.head? = some c) : l₂.head? = some c := by
  obtain ⟨t, rfl⟩ := h
  cases l₁ with
  | nil => simp at hc
  | cons a t' => simpa using hc

theorem getLast?_dropLastWhile {p : Char → Bool} {l : List Char} {c : Char}
    (h : (dropLastWhile p l).getLast? = some c) : p c = false := by
  rw [dropLastWhile, List.getLast?_reverse] at h
  exact head?_dropWhile h

theorem stripWs_head {l : List Char} {c : Char}
    (h : (stripWs l).head? = some c) : isWs c = false :=
  head?_dropWhile (head?_of_front (dropLastWhile_front _ _) h)

theorem stripWs_getLast {l : List Char} {c : Char}
    (h : (stripWs l).getLast? = some c) : isWs c = false :=
  getLast?_dropLastWhile h

theorem collapseA_ne_nil : ∀ {l : List Char}, l ≠ [] → collapseA l ≠ [] := by
  intro l
  match l with
  | [] => simp
  | [c] => simp [collapseA]
  | c1 :: c2 :: rest =>
    intro _
    rw [collapseA]
    split <;> simp

theorem collapseA_head? : ∀ (l : List Char), (collapseA l).head? = l.head? := by
  intro l
  match l with
  | [] => rfl
  | [c] => rfl
  | c1 :: c2 :: rest =>
    rw [collapseA]
    split
    · rename_i h
      simp only [Bool.and_eq_true, beq_iff_eq] at h
      simp [h.1]
    · simp

theorem collapseA_getLast? : ∀ (l : List Char),
    (collapseA l).getLast? = l.getLast? := by
  intro l
  match l with
  | [] => rfl
  | [c] => rfl
  | c1 :: c2 :: rest =>
    rw [collapseA]
    split
    · rename_i h
      simp only [Bool.and_eq_true, beq_iff_eq] at h
      cases rest with
      | nil => simp [collapseA, h.2]
      | cons d ds =>
        rw [List.getLast?_cons_cons, List.getLast?_cons_cons,
          ← collapseA_getLast? (d :: ds)]
        cases hc : collapseA (d :: ds) with
        | nil => exact absurd hc (collapseA_ne_nil (by simp))
        | cons e es => simp [List.getLast?_cons_cons]
    · cases hc : collapseA (c2 :: rest) with
      | nil => exact absurd hc (collapseA_ne_nil (by simp))
      | cons e es =>
        rw [List.getLast?_cons_cons, ← hc, collapseA_getLast? (c2 :: rest),
          List.getLast?_cons_cons]

theorem mem_collapseA : ∀ {l : List Char} {c : Char},
    c ∈ collapseA l → c ∈ l := by
  intro l
  match l with
  | [] => simp [collapseA]
  | [d] => simp [collapseA]
  | c1 :: c2 :: rest =>
    intro c hc
    rw [collapseA] at hc
    split at hc
    · rename_i h
      simp only [Bool.and_eq_true, beq_iff_eq] at h
      rcases List.mem_cons.1 hc with h1 | h1
      · exact h1 ▸ h.1 ▸ List.mem_cons_self _ _
      · exact List.mem_cons_of_mem _ (List.mem_cons_of_mem _ (mem_collapseA h1))
    · rcases List.mem_cons.1 hc with h1 | h1
      · exact h1 ▸ List.mem_cons_self _ _
      · exact List.mem_cons_of_mem _ (mem_collapseA h1)

theorem mem_stripWs {l : List Char} {c : Char} (h : c ∈ stripWs l) : c ∈ l :=
  (List.dropWhile_suffix isWs).sublist.subset
    ((dropLastWhile_front isWs _).sublist.subset h)

theorem readerStep_image_id (ocr : ImageRequest → List Char) (c : Nat)
    (r : ImageRequest) : ((readerStep ocr c r).1).image_id = r.image_id := by
  simp only [readerStep]
  split
  · rfl
  · split
    · rfl
    · rfl

theorem readerStep_counter (ocr : ImageRequest → List Char) (c : Nat)
    (r : ImageRequest) : (readerStep ocr c r).2 = c := by
  simp only [readerStep]
  split
  · rfl
  · split
    · rfl
    · simp [release]

theorem readerStep_fail_message (ocr : ImageRequest → List Char) (c : Nat)
    (r : ImageRequest) (h : (readerStep ocr c r).1.success = false) :
    (readerStep ocr c r).1.error_message ≠ "" := by
  revert h
  simp only [readerStep]
  split
  · intro _
    dsimp only
    decide
  · split
    · intro _
      dsimp only
      decide
    · simp only [workerResult]
      cases hte : (ocr r).isEmpty <;> simp [hte]

theorem processSession_map_id (ocr : ImageRequest → List Char) :
    ∀ (reqs : List ImageRequest) (c : Nat),
      (processSession ocr c reqs).1.map OCRResult.image_id =
        reqs.map ImageRequest.image_id := by
  intro reqs
  induction reqs with
  | nil => intro c; rfl
  | cons r rs ih =>
    intro c
    simp only [processSession, List.map_cons]
    rw [readerStep_image_id, ih]

theorem processSession_counter (ocr : ImageRequest → List Char) :
    ∀ (reqs : List ImageRequest) (c : Nat),
      (processSession ocr c reqs).2 = c := by
  intro reqs
  induction reqs with
  | nil => intro c; rfl
  | cons r rs ih =>
    intro c
    simp only [processSession]
    rw [ih, readerStep_counter]

theorem processSession_fail_message (ocr : ImageRequest → List Char) :
    ∀ (reqs : List ImageRequest) (c : Nat),
      ∀ w ∈ (processSession ocr c reqs).1,
        w.success = false → w.error_message ≠ "" := by
  intro reqs
  induction reqs with
  | nil => simp [processSession]
  | cons r rs ih =>
    intro c w hw
    simp only [processSession, List.mem_cons] at hw
    rcases hw with hw | hw
    · subst hw
      exact readerStep_fail_message ocr c r
    · exact ih _ w hw

/-- C1: within one session every request read from the stream yields exactly
one `OCRResult` whose `image_id` equals the request's `image_id` (under the
protocol invariant that ids are unique within a session); every unsuccessful
result carries a non-empty error message, and a rejected request (empty
payload or memory rejection) yields a result that echoes the id, has
`success = false` and a descriptive message. -/
theorem session_id_echo (ocr : ImageRequest → List Char) (c : Nat)
    (reqs : List ImageRequest)
    (hids : (reqs.map ImageRequest.image_id).Nodup) :
    (∀ r ∈ reqs,
      ((processSession ocr c reqs).1.countP
        (fun w => w.image_id == r.image_id)) = 1)
    ∧ (∀ w ∈ (processSession ocr c reqs).1,
        w.success = false → w.error_message ≠ "")
    ∧ (∀ (c' : Nat) (r : ImageRequest),
        r.image_data = [] ∨ c' + r.image_data.length > MAX_MEMORY_USAGE →
        (readerStep ocr c' r).1.image_id = r.image_id ∧
        (readerStep ocr c' r).1.success = false ∧
        (readerStep ocr c' r).1.error_message ≠ "") := by
  refine ⟨?_, ?_, ?_⟩
  · intro r hr
    have h1 : (processSession ocr c reqs).1.countP
        (fun w => w.image_id == r.image_id) =
        ((processSession ocr c reqs).1.map OCRResult.image_id).countP
          (fun s => s == r.image_id) := by
      rw [List.countP_map]
      rfl
    rw [h1, processSession_map_id ocr reqs c]
    exact List.count_eq_one_of_mem hids (List.mem_map_of_mem _ hr)
  · exact processSession_fail_message ocr reqs c
  · intro c' r h
    have hs : (readerStep ocr c' r).1.success = false := by
      simp only [readerStep]
      split
      · rfl
      · split
        · rfl
        · rename_i h1 h2
          rcases h with he | hm
          · exact absurd (by simp [he]) h2
          · exact absurd hm h1
    exact ⟨readerStep_image_id _ _ _, hs, readerStep_fail_message _ _ _ hs⟩

/-- Witness for `session_id_echo`: a concrete two-request session in which
the request with id `"a"` receives exactly one response. -/
theorem session_id_echo_witness :
    ((processSession (fun _ => ['T']) 0 exampleRequests).1.countP
      (fun w => w.image_id == "a")) = 1 :=
  (session_id_echo (fun _ => ['T']) 0 exampleRequests (by decide)).1
    ⟨"a", "f1", [1]⟩ (by decide)

/-- C2: the memory governor with `MAX_MEMORY_USAGE = 500 MiB` rejects without
changing the counter whenever `c + n` would exceed the ceiling, otherwise
adds `n`; `release` undoes an admission; the worker's counter update is
independent of whether the response write succeeds; and a session that
starts with counter 0 ends with counter 0 after all its tasks settle. -/
theorem memory_governor_admission (c n : Nat) :
    (c + n > MAX_MEMORY_USAGE → admitBytes c n = (false, c))
    ∧ (c + n ≤ MAX_MEMORY_USAGE → admitBytes c n = (true, c + n))
    ∧ release (c + n) n = c
    ∧ (∀ w : Bool, (workerOutcome (c + n) n w).1 = c)
    ∧ (∀ (ocr : ImageRequest → List Char) (reqs : List ImageRequest),
        (processSession ocr 0 reqs).2 = 0)
    ∧ MAX_MEMORY_USAGE = 500 * 1024 * 1024 := by
  refine ⟨?_, ?_, ?_, ?_, ?_, rfl⟩
  · intro h
    simp [admitBytes, h]
  · intro h
    rw [admitBytes, if_neg (by omega)]
  · simp [release]
  · intro w
    simp [workerOutcome, release]
  · intro ocr reqs
    exact processSession_counter ocr reqs 0

/-- Witness for `memory_governor_admission`: a full governor rejects a
one-byte request unchanged, an empty governor admits seven bytes, and the
concrete example session settles back to counter 0. -/
theorem memory_governor_admission_witness :
    admitBytes MAX_MEMORY_USAGE 1 = (false, MAX_MEMORY_USAGE)
    ∧ admitBytes 0 7 = (true, 7)
    ∧ (processSession (fun _ => ['T']) 0 exampleRequests).2 = 0 :=
  ⟨(memory_governor_admission MAX_MEMORY_USAGE 1).1 (by decide),
   (memory_governor_admission 0 7).2.1 (by decide),
   (memory_governor_admission 0 0).2.2.2.2.1 (fun _ => ['T']) exampleRequests⟩

/-- C3 counterexample: at a concrete empty-payload request the emitted
message is `"Empty image data"` (capital E), not the claimed
`"empty image data"`. -/
theorem empty_data_message_case :
    (readerStep (fun _ => []) 0 ⟨"img1", "f", []⟩).1.error_message
        = "Empty image data"
    ∧ (readerStep (fun _ => []) 0 ⟨"img1", "f", []⟩).1.error_message
        ≠ "empty image data" := by decide

/-- C3 amended: for every empty-payload request, in every state the governor
can actually be in (counter at most the ceiling — the memory check precedes
the empty-payload check, but an empty payload adds zero bytes, and the
counter update comes after both checks), the session emits the single
failure result with message `"Empty image data"` and leaves the counter
unchanged. -/
theorem empty_data_rejection (ocr : ImageRequest → List Char) (c : Nat)
    (r : ImageRequest) (hc : c ≤ MAX_MEMORY_USAGE)
    (he : r.image_data = []) :
    readerStep ocr c r =
      ({ image_id := r.image_id, extracted_text := [], success := false,
         error_message := "Empty image data" }, c) := by
  have hgt : ¬ MAX_MEMORY_USAGE < c := Nat.not_lt.mpr hc
  simp [readerStep, he, hgt]

/-- Witness for `empty_data_rejection` at a concrete request and counter 0. -/
theorem empty_data_rejection_witness :
    readerStep (fun _ => []) 0 ⟨"b", "f2", []⟩ =
      ({ image_id := "b", extracted_text := [], success := false,
         error_message := "Empty image data" }, 0) :=
  empty_data_rejection (fun _ => []) 0 ⟨"b", "f2", []⟩ (by decide) rfl

/-- C4 counterexample: for a request whose bytes do not decode, the service's
result message equals the message of the no-text case and does not contain
`"decode failed"`. -/
theorem decode_failure_message_not_distinct :
    ((workerResult "x" (processImage true (fun _ => false)
        (fun _ => ['H']) [1, 2])).error_message
      = (workerResult "x" (processImage true (fun _ => true)
          (fun _ => []) [1, 2])).error_message)
    ∧ (hasSub "decode failed".toList
        ((workerResult "x" (processImage true (fun _ => false)
          (fun _ => ['H']) [1, 2])).error_message.toList) = false) := by decide

/-- C4 amended: an admitted request whose bytes cannot be decoded produces
`success = false` with the generic message `"OCR failed to extract text"`,
identical to the message produced when the recognizer returns no text:
decode failure is not distinguished. -/
theorem decode_failure_generic_message
    (dec : List Nat → Bool) (recog : List Nat → List Char)
    (imgId : String) (data : List Nat) (hdec : dec data = false) :
    (workerResult imgId (processImage true dec recog data)).success = false
    ∧ (workerResult imgId (processImage true dec recog data)).error_message
        = "OCR failed to extract text"
    ∧ (workerResult imgId (processImage true dec recog data)).error_message
        = (workerResult imgId (processImage true (fun _ => true)
            (fun _ => []) data)).error_message := by
  have h1 : processImage true dec recog data = [] := by
    cases hde : data.isEmpty <;> simp [processImage, hdec, hde]
  have h2 : processImage true (fun _ => true) (fun _ => []) data = [] := by
    cases hde : data.isEmpty <;>
      simp [processImage, hde, postProcessText_main]
  rw [h1, h2]
  exact ⟨rfl, rfl, rfl⟩

/-- Witness for `decode_failure_generic_message` at a concrete undecodable
payload. -/
theorem decode_failure_generic_message_witness :
    (workerResult "x" (processImage true (fun _ => false)
        (fun _ => ['H']) [1, 2])).error_message
      = "OCR failed to extract text" :=
  (decode_failure_generic_message (fun _ => false) (fun _ => ['H'])
    "x" [1, 2] rfl).2.1

/-- C5 counterexample: neither adapter variant equals the spec's four-step
post-processing: the `src/OCRProcessor.cpp` variant maps `"0"` to `"o"`
(a character substitution), and the part_003 variant leaves `".a."`
untrimmed. -/
theorem postprocess_spec_mismatch :
    postProcessText_main "0".toList ≠ specPostProcess "0".toList
    ∧ postProcessText_v2 ".a.".toList ≠ specPostProcess ".a.".toList
    ∧ postProcessText_main "0".toList = "o".toList := by decide

/-- C5 amended: the part_003 variant applies no character substitutions:
every character of its output occurs in its input (the `src/OCRProcessor.cpp`
variant, by the counterexample, does substitute characters, and neither
variant equals the spec's four-step function). -/
theorem postprocess_v2_no_substitutions (l : List Char) (c : Char)
    (h : c ∈ postProcessText_v2 l) : c ∈ l := by
  by_cases h1 : l.isEmpty = true
  · simp [postProcessText_v2, h1] at h
  · by_cases h2 : (stripWs l).isEmpty = true
    · simp [postProcessText_v2, h1, h2] at h
    · simp only [postProcessText_v2, if_neg h1, if_neg h2] at h
      exact mem_stripWs (mem_collapseA h)

/-- Witness for `postprocess_v2_no_substitutions` on the one-character
input `"a"`. -/
theorem postprocess_v2_no_substitutions_witness :
    'a' ∈ postProcessText_v2 "a".toList ∧ 'a' ∈ "a".toList :=
  ⟨by decide, postprocess_v2_no_substitutions "a".toList 'a' (by decide)⟩

/-- C9 counterexample: both `postProcessText` variants fail idempotence: a
second application collapses the double space the part_003 variant leaves in
`"a   b"`, and strips the trailing space the `src/OCRProcessor.cpp` variant
leaves after trimming the dash of `"a  -"`. -/
theorem postprocess_not_idempotent :
    postProcessText_v2 (postProcessText_v2 "a   b".toList)
        ≠ postProcessText_v2 "a   b".toList
    ∧ postProcessText_main (postProcessText_main "a  -".toList)
        ≠ postProcessText_main "a  -".toList := by decide

/-- C9 amended: a single application of the part_003 variant does leave no
leading and no trailing whitespace (though it may leave an interior double
space, so it is not idempotent). -/
theorem postprocess_v2_no_edge_whitespace (l : List Char) :
    (∀ c, (postProcessText_v2 l).head? = some c → isWs c = false)
    ∧ (∀ c, (postProcessText_v2 l).getLast? = some c → isWs c = false) := by
  constructor <;> intro c hc
  · by_cases h1 : l.isEmpty = true
    · simp [postProcessText_v2, h1] at hc
    · by_cases h2 : (stripWs l).isEmpty = true
      · simp [postProcessText_v2, h1, h2] at hc
      · simp only [postProcessText_v2, if_neg h1, if_neg h2] at hc
        rw [collapseA_head?] at hc
        exact stripWs_head hc
  · by_cases h1 : l.isEmpty = true
    · simp [postProcessText_v2, h1] at hc
    · by_cases h2 : (stripWs l).isEmpty = true
      · simp [postProcessText_v2, h1, h2] at hc
      · simp only [postProcessText_v2, if_neg h1, if_neg h2] at hc
        rw [collapseA_getLast?] at hc
        exact stripWs_getLast hc

/-- Witness for `postprocess_v2_no_edge_whitespace` on input `"x"`. -/
theorem postprocess_v2_no_edge_whitespace_witness : isWs 'x' = false :=
  (postprocess_v2_no_edge_whitespace "x".toList).1 'x' (by decide)

/-- `n` enqueues grow the task queue by exactly `n`. -/
theorem enqueueN_length (t : τ) (p : ThreadPool τ) :
    ∀ n, (enqueueN t p n).m_tasks.length = p.m_tasks.length + n := by
  intro n
  induction n with
  | zero => rfl
  | succ m ih =>
    simp only [enqueueN, ThreadPool.enqueue, List.length_append, ih,
      List.length_cons, List.length_nil]
    omega

/-- C7 counterexample: the pool's task channel is not bounded: no capacity
`Q` bounds the queue length over all reachable pool states, because
`enqueue` appends unconditionally (`n` enqueues with no worker progress
leave `n` queued tasks). -/
theorem threadpool_queue_unbounded :
    ¬ ∃ Q : Nat, ∀ n : Nat,
      (enqueueN 0 emptyPool n).m_tasks.length ≤ Q := by
  rintro ⟨Q, hQ⟩
  have h := hQ (Q + 1)
  rw [enqueueN_length] at h
  have h0 : emptyPool.m_tasks.length = 0 := rfl
  rw [h0] at h
  omega

/-- C7 amended: the channel itself is unbounded and `enqueue` never blocks;
the back-pressure in part_007 is the reader's spin loop, which keeps each
session's queued-plus-running task count at most
`MAX_CONCURRENT_TASKS = 4` in every reachable state. -/
theorem session_task_limit {s : SessionTasks} (h : SessionReachable s) :
    s.queued + s.running ≤ MAX_CONCURRENT_TASKS
    ∧ s.queued ≤ MAX_CONCURRENT_TASKS := by
  have main : s.queued + s.running ≤ MAX_CONCURRENT_TASKS := by
    induction h with
    | start => simp [MAX_CONCURRENT_TASKS]
    | step hr hstep ih =>
      cases hstep with
      | dispatch hlt =>
        simp only [MAX_CONCURRENT_TASKS] at *
        omega
      | pickup hq =>
        simp only [MAX_CONCURRENT_TASKS] at *
        omega
      | complete hr2 =>
        simp only [MAX_CONCURRENT_TASKS] at *
        omega
  exact ⟨main, by omega⟩

/-- Witness for `session_task_limit` at the initial session state. -/
theorem session_task_limit_witness :
    (⟨0, 0⟩ : SessionTasks).queued + (⟨0, 0⟩ : SessionTasks).running
      ≤ MAX_CONCURRENT_TASKS :=
  (session_task_limit SessionReachable.start).1

/-- In every reachable part_007 stream state, a thread inside
`stream->Write` holds `m_streamMutex`. -/
theorem mutex_writing_owner {s : StreamWriteState} (h : MutexReach s) :
    ∀ t, s.writing t = true → s.owner = some t := by
  induction h with
  | start =>
    intro t ht
    simp at ht
  | step hr hstep ih =>
    cases hstep with
    | acquire t hown =>
      intro u hu
      dsimp only at hu
      by_cases he : u = t
      · subst he
        rfl
      · rw [Function.update_noteq he] at hu
        have h2 := ih u hu
        rw [hown] at h2
        exact absurd h2 (by simp)
    | unlock t hown =>
      intro u hu
      dsimp only at hu
      by_cases he : u = t
      · subst he
        rw [Function.update_same] at hu
        exact absurd hu (by simp)
      · rw [Function.update_noteq he] at hu
        have h2 := ih u hu
        rw [hown] at h2
        exact absurd (Option.some.inj h2).symm he

/-- C8 amended: in the part_007 session every `stream->Write` runs under
`m_streamMutex`, so in every reachable state and interleaving at most one
thread is inside the stream's write side (in the part_008 session, by the
counterexample, two workers can write concurrently). -/
theorem locked_writes_mutual_exclusion {s : StreamWriteState}
    (h : MutexReach s) {t u : Nat} (ht : s.writing t = true)
    (hu : s.writing u = true) : t = u := by
  have h1 := mutex_writing_owner h t ht
  have h2 := mutex_writing_owner h u hu
  rw [h1] at h2
  exact Option.some.inj h2

/-- Witness for `locked_writes_mutual_exclusion`: after thread 0 acquires the
mutex and starts writing, the only writer is thread 0. -/
theorem locked_writes_mutual_exclusion_witness : (0 : Nat) = 0 :=
  locked_writes_mutual_exclusion
    (MutexReach.step MutexReach.start (MutexStep.acquire _ 0 rfl))
    (by simp) (by simp)

/-- C8 counterexample: with the part_008 write discipline (no mutex around
`stream->Write`) the session reaches a state in which the two distinct
workers 0 and 1 are both inside the stream's write side. -/
theorem free_writes_interleave :
    FreeReach twoWritersState
    ∧ twoWritersState.writing 0 = true
    ∧ twoWritersState.writing 1 = true
    ∧ (0 : Nat) ≠ 1 := by
  refine ⟨?_, by simp [twoWritersState], by simp [twoWritersState], by decide⟩
  exact FreeReach.step
    (FreeReach.step FreeReach.start (FreeStep.enter _ 0))
    (FreeStep.enter _ 1)

/-- One post-increment of the wrapped 32-bit counter corresponds to adding
one and re-wrapping, so `int32OfCount` is the counter value after `k`
increments from 0. -/
theorem int32OfCount_succ (k : Nat) :
    int32OfCount (k + 1)
      = ((int32OfCount k + 1 + 2 ^ 31) % 2 ^ 32) - 2 ^ 31 := by
  unfold int32OfCount
  push_cast
  omega

/-- C10: for every number `k` of previously dispatched requests, the
round-robin computation — the wrapped signed 32-bit counter converted to
`size_t` and reduced modulo the processor count — yields an index below the
processor count, so `m_processors[processorIndex]` is in bounds, including
after more than `2^31` increments. -/
theorem round_robin_index_in_bounds {α : Type} (ps : List α) (k : Nat)
    (h : ps ≠ []) :
    processorIndex k ps.length < ps.length
    ∧ (selectProcessor ps k).isSome = true := by
  have hl : 0 < ps.length := List.length_pos.mpr h
  have hlt : processorIndex k ps.length < ps.length := Nat.mod_lt _ hl
  refine ⟨hlt, ?_⟩
  rw [selectProcessor, List.get?_eq_get hlt]
  rfl

/-- Witness for `round_robin_index_in_bounds` with four processors after
`2^31 + 7` dispatches (the signed counter has wrapped negative). -/
theorem round_robin_index_in_bounds_witness :
    processorIndex (2 ^ 31 + 7) ([10, 20, 30, 40] : List Nat).length
        < ([10, 20, 30, 40] : List Nat).length
    ∧ (selectProcessor ([10, 20, 30, 40] : List Nat) (2 ^ 31 + 7)).isSome
        = true :=
  round_robin_index_in_bounds [10, 20, 30, 40] (2 ^ 31 + 7) (by decide)

/-- If no character of `ip` is a colon, `takeWhile (!= colon)` of
`ip ++ colon :: zs` is exactly `ip`. -/
theorem takeWhile_append_colon (zs : List Char) :
    ∀ (ip : List Char), ':' ∉ ip →
      (ip ++ ':' :: zs).takeWhile (fun c => c != ':') = ip := by
  intro ip
  induction ip with
  | nil =>
    intro _
    simp [List.takeWhile_cons]
  | cons a t ih =>
    intro h
    have ha : (a != ':') = true := by
      simp only [bne_iff_ne, ne_eq]
      intro e
      exact h (e ▸ List.mem_cons_self a t)
    simp only [List.cons_append, List.takeWhile_cons, ha, if_true]
    rw [ih (fun hm => h (List.mem_cons_of_mem a hm))]

/-- C6 counterexample: the bound address depends on flag order: with
`--port 8080` before `--address 1.2.3.4` the server binds
`1.2.3.4:50051` — the `--address` branch overwrites the whole address,
discarding the earlier port — not `1.2.3.4:8080`. -/
theorem cli_order_dependent :
    serverAddress ["--port".toList, "8080".toList, "--address".toList,
        "1.2.3.4".toList] = some "1.2.3.4:50051".toList
    ∧ serverAddress ["--port".toList, "8080".toList, "--address".toList,
        "1.2.3.4".toList] ≠ some "1.2.3.4:8080".toList
    ∧ serverAddress ["--address".toList, "1.2.3.4".toList, "--port".toList,
        "8080".toList] = some "1.2.3.4:8080".toList := by decide

/-- C6 amended: the defaults are `0.0.0.0:50051`; `--address ip` alone binds
`ip:50051`; `--port p` alone binds `0.0.0.0:p`; and `--address ip` followed
by `--port p` binds `ip:p` — but only in that order, since a later
`--address` resets the port to the default. -/
theorem cli_parse_address_port (ip port : List Char) (h : ':' ∉ ip) :
    serverAddress [] = some defaultAddress
    ∧ serverAddress ["--address".toList, ip] = some (ip ++ ":50051".toList)
    ∧ serverAddress ["--address".toList, ip, "--port".toList, port]
        = some (ip ++ ':' :: port)
    ∧ serverAddress ["--port".toList, port]
        = some ("0.0.0.0:".toList ++ port) := by
  refine ⟨rfl, ?_, ?_, ?_⟩
  · rw [serverAddress, parseArgs, if_pos rfl]
    rfl
  · rw [serverAddress, parseArgs, if_pos rfl, parseArgs,
      if_neg (by decide), if_pos rfl, parseArgs]
    have hmem : ':' ∈ ip ++ ":50051".toList :=
      List.mem_append_right _ (by decide)
    rw [applyPort, if_pos hmem]
    have hsplit : (":50051".toList : List Char) = ':' :: "50051".toList := by
      decide
    rw [hsplit, takeWhile_append_colon _ ip h]
  · rw [serverAddress, parseArgs, if_neg (by decide), if_pos rfl, parseArgs]
    have hmem : ':' ∈ defaultAddress := by decide
    rw [applyPort, if_pos hmem]
    have htw : defaultAddress.takeWhile (fun c => c != ':')
        = "0.0.0.0".toList := by decide
    rw [htw]
    have hsplit : ("0.0.0.0:".toList : List Char)
        = "0.0.0.0".toList ++ [':'] := by decide
    rw [hsplit, List.append_assoc]
    rfl

/-- Witness for `cli_parse_address_port` with a concrete colon-free address
and port. -/
theorem cli_parse_address_port_witness :
    serverAddress ["--address".toList, "9.9.9.9".toList, "--port".toList,
        "1234".toList] = some ("9.9.9.9".toList ++ ':' :: "1234".toList) :=
  (cli_parse_address_port "9.9.9.9".toList "1234".toList (by decide)).2.2.1

end OCRServer
